import Mathlib

/-!
Shallow embedding of the FlowPrint hierarchical task store
(src/store/useTaskStore.ts, src/components/DataManagementPanel.tsx,
src/types/index.ts) and proofs about its operations.

JavaScript objects used as string-keyed dictionaries (`Record<string, T>`)
are modelled as association lists that preserve insertion order, which is
the enumeration order `Object.entries` delivers for non-index keys.
`Date` values are modelled by their millisecond time value (an `Int`),
which is exactly the information `toISOString` / `new Date(isoString)`
transport.
-/

namespace FlowPrint

/-- JS `Record<string, α>` as an insertion-ordered association list. -/
abbrev Record (α : Type) : Type := List (String × α)

/-- Property read `m[k]`. -/
def recordLookup (m : Record α) (k : String) : Option α :=
  ((List.find? (fun p => p.1 == k) m)).map (fun p => p.2)

/-- JS `{ ...m, [k]: v }`: an existing key keeps its position and is
overwritten, a new key is appended. -/
def recordInsert (m : Record α) (k : String) (v : α) : Record α :=
  if List.any m (fun p => p.1 == k) then
    List.map (fun p => if p.1 == k then (k, v) else p) m
  else
    m ++ [(k, v)]

/-- JS `delete m[k]`. -/
def recordDelete (m : Record α) (k : String) : Record α :=
  List.filter (fun p => p.1 != k) m

/-- JS `Object.keys`. -/
def recordKeys (m : Record α) : List String :=
  List.map (fun p => p.1) m

/-- JS `{ ...m1, ...m2 }`. -/
def recordMerge (m1 m2 : Record α) : Record α :=
  List.foldl (fun acc p => recordInsert acc p.1 p.2) m1 m2

/-- JS `Array.from(new Set(l))`: removes duplicates, keeping the first
occurrence of each element. -/
def jsDedup (l : List String) : List String :=
  List.foldl (fun acc x => if x ∈ acc then acc else acc ++ [x]) [] l

/-- JS truthiness of a `string | null` value: `null` and `""` are falsy. -/
def jsTruthyId : Option String → Bool
  | none => false
  | some s => s != ""

/-- `TaskPriority` from src/types/index.ts. -/
inductive TaskPriority where
  | low
  | medium
  | high
deriving DecidableEq, Repr

/-- `Task` from src/types/index.ts; `createdAt` / `completedAt` carry the
millisecond time value of the `Date`. -/
structure Task where
  id : String
  title : String
  description : Option String := none
  completed : Bool
  parentId : Option String
  childrenIds : List String
  createdAt : Int
  completedAt : Option Int
  estimatedMinutes : Option Nat := none
  tags : List String
  priority : TaskPriority
deriving DecidableEq, Repr

/-- `TaskColumn` from src/types/index.ts. -/
structure TaskColumn where
  id : String
  taskIds : List String
  parentTaskId : Option String
  level : Nat
deriving DecidableEq, Repr

/-- `TaskTemplateTaskDefinition` from src/types/index.ts (a tree of task
definitions, with optional nested `children`). -/
inductive TaskTemplateTaskDefinition where
  | mk (title : String) (description : Option String)
       (estimatedMinutes : Option Nat) (priority : Option TaskPriority)
       (tags : Option (List String))
       (children : List TaskTemplateTaskDefinition)

def TaskTemplateTaskDefinition.title : TaskTemplateTaskDefinition → String
  | .mk t _ _ _ _ _ => t

def TaskTemplateTaskDefinition.children :
    TaskTemplateTaskDefinition → List TaskTemplateTaskDefinition
  | .mk _ _ _ _ _ c => c

/-- `TaskTemplate` from src/types/index.ts. -/
structure TaskTemplate where
  id : String
  name : String
  tasks : List TaskTemplateTaskDefinition

/-- The store state of `useTaskStore` (persisted slice plus the UI slice). -/
structure TaskState where
  tasks : Record Task
  columns : List TaskColumn
  rootTaskIds : List String
  selectedTaskId : Option String
  editingTaskId : Option String
  taskTemplates : Record TaskTemplate

/-- `addTask` (useTaskStore.ts lines 189-203).  `!task.parentId` treats
`null` and `""` as "no parent"; a child id is added to the parent via
`Array.from(new Set(parent.childrenIds).add(task.id))`. -/
def addTask (task : Task) (s : TaskState) : TaskState :=
  let newTasks := recordInsert s.tasks task.id task
  if jsTruthyId task.parentId = false then
    let newRootTaskIds :=
      if task.id ∈ s.rootTaskIds then s.rootTaskIds else s.rootTaskIds ++ [task.id]
    { s with tasks := newTasks, rootTaskIds := newRootTaskIds }
  else
    match task.parentId with
    | some pid =>
      match recordLookup newTasks pid with
      | some parent =>
        let parent2 := { parent with childrenIds := jsDedup (parent.childrenIds ++ [task.id]) }
        { s with tasks := recordInsert newTasks pid parent2 }
      | none => { s with tasks := newTasks }
    | none => { s with tasks := newTasks }

/-- `Partial<Task>` as passed to `updateTask`: a field is `some` exactly
when the corresponding property is supplied. -/
structure TaskPatch where
  id : Option String := none
  title : Option String := none
  description : Option (Option String) := none
  completed : Option Bool := none
  parentId : Option (Option String) := none
  childrenIds : Option (List String) := none
  createdAt : Option Int := none
  completedAt : Option (Option Int) := none
  estimatedMinutes : Option (Option Nat) := none
  tags : Option (List String) := none
  priority : Option TaskPriority := none
deriving DecidableEq, Repr

/-- The merge `{ ...taskToUpdate, ...restOfProperties }` performed by
`updateTask`, after `const { createdAt, ...restOfProperties }` has removed
`createdAt` from the supplied properties. -/
def applyPatch (t : Task) (p : TaskPatch) : Task :=
  { id := Option.getD p.id t.id
    title := Option.getD p.title t.title
    description := Option.getD p.description t.description
    completed := Option.getD p.completed t.completed
    parentId := Option.getD p.parentId t.parentId
    childrenIds := Option.getD p.childrenIds t.childrenIds
    createdAt := t.createdAt
    completedAt := Option.getD p.completedAt t.completedAt
    estimatedMinutes := Option.getD p.estimatedMinutes t.estimatedMinutes
    tags := Option.getD p.tags t.tags
    priority := Option.getD p.priority t.priority }

/-- `updateTask` (useTaskStore.ts lines 205-215). -/
def updateTask (taskId : String) (updatedProperties : TaskPatch) (s : TaskState) :
    TaskState :=
  match recordLookup s.tasks taskId with
  | none => s
  | some taskToUpdate =>
    { s with tasks := recordInsert s.tasks taskId (applyPatch taskToUpdate updatedProperties) }

/-- `deleteTask` (useTaskStore.ts lines 217-235). -/
def deleteTask (taskId : String) (s : TaskState) : TaskState :=
  match recordLookup s.tasks taskId with
  | none => s
  | some taskToDelete =>
    let newTasks := recordDelete s.tasks taskId
    let newTasks :=
      if jsTruthyId taskToDelete.parentId then
        match taskToDelete.parentId with
        | some pid =>
          match recordLookup newTasks pid with
          | some parent =>
            recordInsert newTasks pid
              ({ parent with childrenIds := List.filter (fun i => i != taskId) parent.childrenIds })
          | none => newTasks
        | none => newTasks
      else newTasks
    { s with
      tasks := newTasks
      rootTaskIds := List.filter (fun i => i != taskId) s.rootTaskIds
      selectedTaskId := if s.selectedTaskId = some taskId then none else s.selectedTaskId
      editingTaskId := if s.editingTaskId = some taskId then none else s.editingTaskId }

/-- `toggleTaskCompletion` (useTaskStore.ts lines 237-250); `now` is the
time value of the `new Date()` taken on the transition to completed. -/
def toggleTaskCompletion (taskId : String) (now : Int) (s : TaskState) : TaskState :=
  match recordLookup s.tasks taskId with
  | none => s
  | some task =>
    let task2 := { task with
      completed := !task.completed
      completedAt := if !task.completed then some now else none }
    { s with tasks := recordInsert s.tasks taskId task2 }

/-- One step of the `for (const taskId of selectedTaskIdsHierarchy)` loop of
`setActiveColumns`: the accumulator carries the columns built so far and the
running `level` counter. -/
def setActiveColumnsStep (s : TaskState) (now : Int)
    (acc : List TaskColumn × Nat) (taskId : String) : List TaskColumn × Nat :=
  match recordLookup s.tasks taskId with
  | some task =>
    if 0 < List.length task.childrenIds then
      (acc.1 ++ [{ id := "column-" ++ taskId ++ "-" ++ toString now
                   taskIds := List.filter (fun i => Option.isSome (recordLookup s.tasks i)) task.childrenIds
                   parentTaskId := some taskId
                   level := acc.2 }],
       acc.2 + 1)
    else acc
  | none => acc

/-- `setActiveColumns` (useTaskStore.ts lines 260-285); `now` is `Date.now()`
as used in the synthetic column ids. -/
def setActiveColumns (selectedTaskIdsHierarchy : List String) (now : Int)
    (s : TaskState) : TaskState :=
  let rootColumn : TaskColumn :=
    { id := "column-root-" ++ toString now
      taskIds := List.filter (fun i => Option.isSome (recordLookup s.tasks i)) s.rootTaskIds
      parentTaskId := none
      level := 0 }
  let res := List.foldl (setActiveColumnsStep s now) ([rootColumn], 1)
      selectedTaskIdsHierarchy
  { s with columns := List.take 5 res.1 }

/-- `applyTemplate` (useTaskStore.ts lines 100-187).  The body at line 147
iterates `template.tasks` with an empty forEach body (the call to
`processTaskDefinition` at line 146 is commented out), so
`generatedTopLevelTaskIds`, `tempTasks`, `tempRootTaskIds` and
`tempParentChildMap` all stay empty; only the final `set` block (lines
155-185) runs, with those empty values. -/
def applyTemplate (templateId : String) (parentId : Option String)
    (_startDateTime : Option Int) (s : TaskState) : List String × TaskState :=
  match recordLookup s.taskTemplates templateId with
  | none => ([], s)
  | some _template =>
    let generatedTopLevelTaskIds : List String := []
    let tempTasks : Record Task := []
    let tempRootTaskIds : List String := []
    let tempParentChildMap : Record (List String) := []
    let finalTasks := recordMerge s.tasks tempTasks
    let finalRootTaskIds := List.foldl
      (fun acc i => if i ∈ acc then acc else acc ++ [i]) s.rootTaskIds tempRootTaskIds
    let finalTasks :=
      if jsTruthyId parentId then
        match parentId with
        | some pid =>
          match recordLookup finalTasks pid with
          | some parentTask =>
            let newKids := jsDedup (parentTask.childrenIds ++ Option.getD (recordLookup tempParentChildMap pid) [])
            recordInsert finalTasks pid ({ parentTask with childrenIds := newKids })
          | none => finalTasks
        | none => finalTasks
      else finalTasks
    let mapKey := match parentId with
      | some pid => if pid != "" then pid else ""
      | none => ""
    let fallbackIds := Option.getD (recordLookup tempParentChildMap mapKey) tempRootTaskIds
    let newColumns := List.map
      (fun col => if col.parentTaskId = parentId then
          { col with taskIds := jsDedup (col.taskIds ++ fallbackIds) }
        else col) s.columns
    let newColumns :=
      if jsTruthyId parentId = false then
        match List.findIdx? (fun col => col.parentTaskId = none && col.level = 0) newColumns with
        | some idx =>
          match List.get? newColumns idx with
          | some rootCol =>
            List.set newColumns idx
              ({ rootCol with taskIds := jsDedup (rootCol.taskIds ++ tempRootTaskIds) })
          | none => newColumns
        | none => newColumns
      else newColumns
    (generatedTopLevelTaskIds,
     { s with tasks := finalTasks, rootTaskIds := finalRootTaskIds, columns := newColumns })

/-- The week-start offset in `getTasksCompletedThisWeekCount`
(useTaskStore.ts line 305): `today === 0 ? 6 : today - 1` days back from
today, Monday as start of week. -/
def weekOffsetCode (dayOfWeek : Nat) : Nat :=
  if dayOfWeek = 0 then 6 else dayOfWeek - 1

def msPerDay : Int := 86400000

/-- `getTasksCompletedThisWeekCount` (useTaskStore.ts lines 300-310),
abstracted over the wall clock: `dayOfWeek` is `now.getDay()` and
`todayStart` is the time value of today's local midnight, so the computed
`weekStart` is `todayStart` minus the offset in days. -/
def getTasksCompletedThisWeekCount (dayOfWeek : Nat) (todayStart : Int)
    (s : TaskState) : Nat :=
  let weekStart := todayStart - (weekOffsetCode dayOfWeek : Int) * msPerDay
  List.countP
    (fun p => p.2.completed &&
      (match p.2.completedAt with
       | some c => decide (weekStart ≤ c)
       | none => false))
    s.tasks

/-- Modelled from the spec (section 4.5): the same count with the week
start written as `today - ((dayOfWeek + 6) % 7)` days, the formula the
spec gives for "most recent Monday 00:00, Sunday counting as day 7 of the
prior week". -/
def getTasksCompletedThisWeekCountSpec (dayOfWeek : Nat) (todayStart : Int)
    (s : TaskState) : Nat :=
  let weekStart := todayStart - (((dayOfWeek + 6) % 7 : Nat) : Int) * msPerDay
  List.countP
    (fun p => p.2.completed &&
      (match p.2.completedAt with
       | some c => decide (weekStart ≤ c)
       | none => false))
    s.tasks

/-- The character for the decimal digit `k % 10`. -/
def mkDigit (k : Nat) : Char := Char.ofNat (48 + k % 10)

/-- Numeric value of a decimal digit character. -/
def digitVal (c : Char) : Nat := c.toNat - 48

/-- Two-digit zero-padded decimal, as JS renders date components < 100. -/
def pad2 (n : Nat) : List Char := [mkDigit (n / 10), mkDigit n]

/-- Three-digit zero-padded decimal (milliseconds). -/
def pad3 (n : Nat) : List Char := [mkDigit (n / 100), mkDigit (n / 10), mkDigit n]

/-- Four-digit zero-padded decimal (years 0-9999). -/
def pad4 (n : Nat) : List Char :=
  [mkDigit (n / 1000), mkDigit (n / 100), mkDigit (n / 10), mkDigit n]

/-- Year of era from day of era (Gregorian 400-year cycle arithmetic). -/
def yoeFromDoe (doe : Nat) : Nat :=
  (doe - doe / 1460 + doe / 36524 - doe / 146096) / 365

/-- Day of year (March-based) from day of era. -/
def doyFromDoe (doe : Nat) : Nat :=
  doe - (365 * yoeFromDoe doe + yoeFromDoe doe / 4 - yoeFromDoe doe / 100)

/-- March-based month index 0-11 from day of year. -/
def mpFromDoy (doy : Nat) : Nat := (5 * doy + 2) / 153

/-- Proleptic-Gregorian civil date (year, month, day) of a day count
relative to 1970-01-01, as computed by the JS `Date` machinery. -/
def civilFromDays (z : Int) : Int × Nat × Nat :=
  let era : Int := (z + 719468) / 146097
  let doe : Nat := Int.toNat ((z + 719468) % 146097)
  let yoe := yoeFromDoe doe
  let doy := doyFromDoe doe
  let mp := mpFromDoy doy
  let d := doy - (153 * mp + 2) / 5 + 1
  let m := if mp < 10 then mp + 3 else mp - 9
  (era * 400 + (yoe : Int) + (if m ≤ 2 then 1 else 0), m, d)

/-- Day count relative to 1970-01-01 of a proleptic-Gregorian civil date. -/
def daysFromCivil (y : Int) (m d : Nat) : Int :=
  let ya := if m ≤ 2 then y - 1 else y
  let era : Int := ya / 400
  let yoe : Nat := Int.toNat (ya % 400)
  let mp := if 2 < m then m - 3 else m + 9
  let doy := (153 * mp + 2) / 5 + d - 1
  let doe := yoe * 365 + yoe / 4 - yoe / 100 + doy
  era * 146097 + (doe : Int) - 719468

/-- `Date.prototype.toISOString` on a millisecond time value, for dates
whose year lies in 0-9999 (the simple `YYYY-MM-DDTHH:MM:SS.mmmZ` format;
JS switches to an expanded-year format outside that range). -/
def formatISO (t : Int) : String :=
  let z := t / msPerDay
  let msod := Int.toNat (t % msPerDay)
  let c := civilFromDays z
  String.mk
    (pad4 (Int.toNat c.1) ++ '-' :: pad2 c.2.1 ++ '-' :: pad2 c.2.2 ++
     'T' :: pad2 (msod / 3600000) ++ ':' :: pad2 (msod / 60000 % 60) ++
     ':' :: pad2 (msod / 1000 % 60) ++ '.' :: pad3 (msod % 1000) ++ ['Z'])

/-- Parsing of a `YYYY-MM-DDTHH:MM:SS.mmmZ` character sequence to a
millisecond time value; anything else is rejected. -/
def parseISOChars (chars : List Char) : Option Int :=
  match chars with
  | y1 :: y2 :: y3 :: y4 :: '-' :: o1 :: o2 :: '-' :: d1 :: d2 ::
    'T' :: h1 :: h2 :: ':' :: i1 :: i2 :: ':' :: s1 :: s2 :: '.' ::
    f1 :: f2 :: f3 :: 'Z' :: [] =>
    if y1.isDigit && y2.isDigit && y3.isDigit && y4.isDigit &&
       o1.isDigit && o2.isDigit && d1.isDigit && d2.isDigit &&
       h1.isDigit && h2.isDigit && i1.isDigit && i2.isDigit &&
       s1.isDigit && s2.isDigit && f1.isDigit && f2.isDigit && f3.isDigit then
      let y : Nat := digitVal y1 * 1000 + digitVal y2 * 100 + digitVal y3 * 10 + digitVal y4
      let mo : Nat := digitVal o1 * 10 + digitVal o2
      let dd : Nat := digitVal d1 * 10 + digitVal d2
      let hh : Nat := digitVal h1 * 10 + digitVal h2
      let mi : Nat := digitVal i1 * 10 + digitVal i2
      let ss : Nat := digitVal s1 * 10 + digitVal s2
      let ff : Nat := digitVal f1 * 100 + digitVal f2 * 10 + digitVal f3
      some (daysFromCivil (y : Int) mo dd * msPerDay +
            ((hh * 3600000 + mi * 60000 + ss * 1000 + ff : Nat) : Int))
    else none
  | _ => none

/-- Parsing of an ISO-8601 `YYYY-MM-DDTHH:MM:SS.mmmZ` string, as
`new Date(isoString)` performs it. -/
def parseISO (str : String) : Option Int :=
  parseISOChars str.data

/-- Time values whose civil year lies in 0-9999, i.e.
0000-01-01T00:00:00.000Z through 9999-12-31T23:59:59.999Z: exactly the
dates `toISOString` renders in the simple 24-character format. -/
def ValidMs (t : Int) : Prop :=
  -62167219200000 ≤ t ∧ t < 253402300800000

instance (t : Int) : Decidable (ValidMs t) := by
  unfold ValidMs; infer_instance

/-- `new Date(str)` for a string argument: the parsed time value, or an
Invalid Date (whose time value is NaN, modelled by a sentinel) when the
string does not parse. -/
def newDateFromString (str : String) : Int :=
  match parseISO str with
  | some t => t
  | none => invalidDateValue
where
  /-- Sentinel standing in for the NaN time value of a JS Invalid Date. -/
  invalidDateValue : Int := -(2 ^ 62)

/-- `ExportedTask` from src/types/index.ts: `Task` with the two dates as
ISO strings (`completedAt` possibly null). -/
structure ExportedTask where
  id : String
  title : String
  description : Option String := none
  completed : Bool
  parentId : Option String
  childrenIds : List String
  createdAt : String
  completedAt : Option String
  estimatedMinutes : Option Nat := none
  tags : List String
  priority : TaskPriority
deriving DecidableEq, Repr

/-- The per-task conversion in `handleExport`
(DataManagementPanel.tsx lines 19-28). -/
def exportTask (t : Task) : ExportedTask :=
  { id := t.id
    title := t.title
    description := t.description
    completed := t.completed
    parentId := t.parentId
    childrenIds := t.childrenIds
    createdAt := formatISO t.createdAt
    completedAt := match t.completedAt with
      | some c => some (formatISO c)
      | none => none
    estimatedMinutes := t.estimatedMinutes
    tags := t.tags
    priority := t.priority }

/-- `ExportedData` from src/types/index.ts. -/
structure ExportedData where
  version : Int
  tasks : Record ExportedTask
  rootTaskIds : List String
  taskTemplates : Record TaskTemplate

def CURRENT_DATA_VERSION : Int := 1

/-- The export conversion of `handleExport`
(DataManagementPanel.tsx lines 18-37): dates to ISO strings, wrapped in
the versioned envelope. -/
def exportData (s : TaskState) : ExportedData :=
  { version := CURRENT_DATA_VERSION
    tasks := List.map (fun p => (p.1, exportTask p.2)) s.tasks
    rootTaskIds := s.rootTaskIds
    taskTemplates := s.taskTemplates }

/-- The JS value found at `data.tasks` when `importState` receives
arbitrary parsed JSON: a non-object primitive, `null`, a plain object, or
an array (for which `typeof` is also `'object'` and `Object.entries`
yields index-keyed entries). -/
inductive JTasksField where
  | nonObject
  | jnull
  | jmap (m : Record ExportedTask)
  | jarr (l : List ExportedTask)

/-- The JS value found at `data.rootTaskIds`: an array or not. -/
inductive JRootField where
  | nonArray
  | arr (l : List String)

/-- The JS value found at `data.taskTemplates`. -/
inductive JTemplatesField where
  | nonObject
  | jmap (m : Record TaskTemplate)

/-- A possibly ill-typed `ExportedData` value as `importState` may
receive it. -/
structure RawImportData where
  tasks : JTasksField
  rootTaskIds : JRootField
  taskTemplates : JTemplatesField

/-- The per-task rehydration in `importState` (useTaskStore.ts lines
330-339): `createdAt` through `new Date(...)`, `completedAt` through
`task.completedAt ? new Date(task.completedAt) : null`. -/
def rehydrateTask (et : ExportedTask) : Task :=
  { id := et.id
    title := et.title
    description := et.description
    completed := et.completed
    parentId := et.parentId
    childrenIds := et.childrenIds
    createdAt := newDateFromString et.createdAt
    completedAt := match et.completedAt with
      | some str => if str = "" then none else some (newDateFromString str)
      | none => none
    estimatedMinutes := et.estimatedMinutes
    tags := et.tags
    priority := et.priority }

/-- `Object.entries` of a JS array: index-keyed entries in order. -/
def indexedEntries (l : List ExportedTask) : Record ExportedTask :=
  List.map (fun p => (toString p.1, p.2)) (List.enum l)

/-- `importState` (useTaskStore.ts lines 322-360).  The argument is
`none` when `data` itself is null/undefined.  The guard mirrors
`typeof data.tasks !== 'object' || !Array.isArray(data.rootTaskIds) ||
typeof data.taskTemplates !== 'object'` (note `typeof null` and `typeof`
of an array are both `'object'`); a null `data.tasks` passes the guard
but makes `Object.entries` throw, which the `try/catch` turns into a
`false` return with no state change. -/
def importState (data : Option RawImportData) (s : TaskState) : Bool × TaskState :=
  match data with
  | none => (false, s)
  | some d =>
    match d.tasks, d.rootTaskIds, d.taskTemplates with
    | .nonObject, _, _ => (false, s)
    | _, .nonArray, _ => (false, s)
    | _, _, .nonObject => (false, s)
    | .jnull, _, _ => (false, s)
    | .jmap m, .arr root, .jmap tpl =>
      (true,
       { tasks := List.map (fun p => (p.1, rehydrateTask p.2)) m
         columns := []
         rootTaskIds := root
         selectedTaskId := none
         editingTaskId := none
         taskTemplates := tpl })
    | .jarr l, .arr root, .jmap tpl =>
      (true,
       { tasks := List.map (fun p => (p.1, rehydrateTask p.2)) (indexedEntries l)
         columns := []
         rootTaskIds := root
         selectedTaskId := none
         editingTaskId := none
         taskTemplates := tpl })

/-- The well-typed `ExportedData` produced by `handleExport`, as the
JS value `importState` receives. -/
def exportedAsRaw (e : ExportedData) : Option RawImportData :=
  some { tasks := .jmap e.tasks
         rootTaskIds := .arr e.rootTaskIds
         taskTemplates := .jmap e.taskTemplates }

/-- Every task timestamp of the snapshot lies in the ISO-renderable
range (section 3 of the spec calls such snapshots valid). -/
def ValidDatesState (s : TaskState) : Prop :=
  ∀ p ∈ s.tasks, ValidMs p.2.createdAt ∧
    ∀ c, p.2.completedAt = some c → ValidMs c

/-- `initialCoreState` plus `nonPersistentState` (useTaskStore.ts lines
41-80); `now0` is the time value of the `new Date()` calls evaluated when
the module loads. -/
def initialState (now0 : Int) : TaskState :=
  { tasks :=
      [("task-1", { id := "task-1", title := "親タスク 1 (サンプル)",
                    description := some "これは親タスク1の説明です。",
                    completed := false, parentId := none,
                    childrenIds := ["task-2", "task-3"], createdAt := now0,
                    completedAt := none, tags := [], priority := .medium }),
       ("task-2", { id := "task-2", title := "子タスク 1-1 (サンプル)",
                    description := some "子タスク1-1の詳細。",
                    completed := false, parentId := some "task-1",
                    childrenIds := [], createdAt := now0,
                    completedAt := none, tags := [], priority := .low }),
       ("task-3", { id := "task-3", title := "子タスク 1-2 (サンプル)",
                    completed := false, parentId := some "task-1",
                    childrenIds := ["task-4"], createdAt := now0,
                    completedAt := none, tags := [], priority := .high }),
       ("task-4", { id := "task-4", title := "孫タスク 1-2-1 (サンプル)",
                    completed := true, parentId := some "task-3",
                    childrenIds := [], createdAt := now0,
                    completedAt := some now0, tags := [], priority := .medium }),
       ("task-5", { id := "task-5", title := "親タスク 2 (サンプル)",
                    completed := false, parentId := none,
                    childrenIds := [], createdAt := now0,
                    completedAt := none, tags := [], priority := .medium })]
    columns := []
    rootTaskIds := ["task-1", "task-5"]
    selectedTaskId := none
    editingTaskId := none
    taskTemplates :=
      [("template-morning",
        { id := "template-morning", name := "朝の準備ルーティン",
          tasks :=
            [.mk "起床・着替え" (some "アラームで起き、今日の服装を選ぶ。") (some 15) none none [],
             .mk "朝食" (some "シリアルとコーヒーを準備して食べる。") (some 20) none none [],
             .mk "歯磨き・洗顔" none (some 10) none none [],
             .mk "今日の予定確認" none (some 5) (some .high) none []] }),
       ("template-project-kickoff",
        { id := "template-project-kickoff", name := "プロジェクト開始準備",
          tasks :=
            [.mk "要件定義確認" none (some 120) (some .high) none [],
             .mk "タスク洗い出し" none none (some .high) none
               [.mk "WBS作成" none (some 60) none none [],
                .mk "担当者割り当て" none (some 30) none none []],
             .mk "スケジュール作成" none (some 90) (some .medium) none [],
             .mk "キックオフミーティング設定" none none (some .low) (some ["meeting"]) []] })] }

/-- The level-0 root column that setActiveColumns builds. -/
def rootColumnOf (s : TaskState) (now : Int) : TaskColumn :=
  { id := "column-root-" ++ toString now
    taskIds := List.filter (fun i => Option.isSome (recordLookup s.tasks i)) s.rootTaskIds
    parentTaskId := none
    level := 0 }

/-- The appended columns as the claim describes them: for each hierarchy id
in order, one column (only when the task exists and has children) holding
its children filtered to existing tasks, at consecutive levels. -/
def specChildColumns (s : TaskState) (now : Int) : Nat → List String → List TaskColumn
  | _, [] => []
  | lvl, tid :: rest =>
    match recordLookup s.tasks tid with
    | some t =>
      if 0 < List.length t.childrenIds then
        { id := "column-" ++ tid ++ "-" ++ toString now
          taskIds := List.filter (fun i => Option.isSome (recordLookup s.tasks i)) t.childrenIds
          parentTaskId := some tid
          level := lvl } :: specChildColumns s now (lvl + 1) rest
      else specChildColumns s now lvl rest
    | none => specChildColumns s now lvl rest

/-- Decidability of the per-task completedAt validity condition. -/
instance decOptionForall (o : Option Int) (P : Int → Prop) [DecidablePred P] :
    Decidable (∀ c, o = some c → P c) :=
  match o with
  | none => isTrue (by intro c hc; cases hc)
  | some x =>
    if h : P x then isTrue (by intro c hc; cases hc; exact h)
    else isFalse (fun hall => h (hall x rfl))

instance decValidDatesState (s : TaskState) : Decidable (ValidDatesState s) := by
  unfold ValidDatesState
  exact List.decidableBAll _ _

/-- A small valid snapshot used by the round-trip witness. -/
def c2Sample : TaskState :=
  { tasks := [("a", { id := "a", title := "sample", completed := true,
                      parentId := none, childrenIds := [], createdAt := 1700000000000,
                      completedAt := some 1700000123456, tags := ["x"],
                      priority := .high })]
    columns := []
    rootTaskIds := ["a"]
    selectedTaskId := some "a"
    editingTaskId := none
    taskTemplates := [("tp", { id := "tp", name := "sample template", tasks := [] })] }

/-- The forest invariant of the spec (section 3): every task with a parent
link is listed in that parent's `childrenIds`. -/
def parentLinksMirrored (m : Record Task) : Bool :=
  List.all m (fun q =>
    match q.2.parentId with
    | some p =>
      match recordLookup m p with
      | some pt => List.contains pt.childrenIds q.1
      | none => true
    | none => true)

/-- Root task used by the C10 scenario. -/
def c10TaskA : Task :=
  { id := "A", title := "task A", completed := false, parentId := none,
    childrenIds := [], createdAt := 0, completedAt := none, tags := [],
    priority := .medium }

/-- Second root task used by the C10 scenario. -/
def c10TaskB : Task :=
  { id := "B", title := "task B", completed := false, parentId := none,
    childrenIds := [], createdAt := 0, completedAt := none, tags := [],
    priority := .medium }

/-- A two-root store on which updateTask can break the forest invariant. -/
def c10State : TaskState :=
  { tasks := [("A", c10TaskA), ("B", c10TaskB)], columns := [],
    rootTaskIds := ["A", "B"], selectedTaskId := none, editingTaskId := none,
    taskTemplates := [] }

/-- The partial update supplying only `parentId`. -/
def c10Patch : TaskPatch := { parentId := some (some "A") }

/-- Ill-typed import payload whose `tasks` is a JS array (a sequence, not a
mapping): `typeof [] === 'object'` lets it through the guard. -/
def c3BadImport : Option RawImportData :=
  some { tasks := JTasksField.jarr [], rootTaskIds := JRootField.arr [],
         taskTemplates := JTemplatesField.jmap [] }

/-- The initial store's task-3 entry at load time 0, for concrete witnesses. -/
def sampleTask3 : Task :=
  { id := "task-3", title := "子タスク 1-2 (サンプル)",
    completed := false, parentId := some "task-1",
    childrenIds := ["task-4"], createdAt := 0,
    completedAt := none, tags := [], priority := .high }

/-- Task-3 after one toggle at instant 5, for the C7 witness. -/
def c7Toggled : Task :=
  { sampleTask3 with completed := !sampleTask3.completed,
                     completedAt := if !sampleTask3.completed then some (5 : Int) else none }

/-- A fresh sample task used by concrete witnesses. -/
def sampleRootTask : Task :=
  { id := "w5", title := "w", completed := false, parentId := none,
    childrenIds := [], createdAt := 0, completedAt := none, tags := [],
    priority := .medium }

/-!
Theorems.  First the facts about the Gregorian-calendar arithmetic used
by the ISO-8601 codec, then the claims about the store operations.
-/

set_option maxHeartbeats 4000000

theorem yoeFacts (doe : Nat) (h : doe < 146097) :
    yoeFromDoe doe ≤ 399 ∧
    365 * yoeFromDoe doe + yoeFromDoe doe / 4 - yoeFromDoe doe / 100 ≤ doe ∧
    doyFromDoe doe ≤ 365 := by
  unfold doyFromDoe yoeFromDoe
  rcases Nat.lt_or_ge doe 1460 with hA | hBC
  · omega
  rcases Nat.lt_or_ge doe 36524 with hB | hCD
  · have he : doe / 36524 = 0 := by omega
    have hf : doe / 146096 = 0 := by omega
    rw [he, hf]
    have hg : 1 ≤ doe / 1460 ∧ doe / 1460 ≤ 25 := by omega
    set g := doe / 1460 with hgdef
    clear_value g
    obtain ⟨hg1, hg2⟩ := hg
    interval_cases g <;> omega
  rcases Nat.lt_or_ge doe 146096 with hC | hD2
  · have hf : doe / 146096 = 0 := by omega
    rw [hf]
    have hg : 25 ≤ doe / 1460 ∧ doe / 1460 ≤ 100 := by omega
    set g := doe / 1460 with hgdef
    clear_value g
    obtain ⟨hg1, hg2⟩ := hg
    interval_cases g <;>
      first
        | omega
        | (have he : 1 ≤ doe / 36524 ∧ doe / 36524 ≤ 3 := by omega
           set e := doe / 36524 with hedef
           clear_value e
           obtain ⟨he1, he2⟩ := he
           interval_cases e <;> omega)
  · have : doe = 146096 := by omega
    subst this
    omega

theorem doyFacts (doy : Nat) (h : doy ≤ 365) :
    mpFromDoy doy ≤ 11 ∧ (153 * mpFromDoy doy + 2) / 5 ≤ doy ∧
    doy - (153 * mpFromDoy doy + 2) / 5 + 1 ≤ 31 ∧
    (10 ≤ mpFromDoy doy → 306 ≤ doy) := by
  unfold mpFromDoy
  omega

theorem daysFromCivil_civilFromDays (z : Int) :
    daysFromCivil (civilFromDays z).1 (civilFromDays z).2.1 (civilFromDays z).2.2 = z := by
  have h0 : 0 ≤ (z + 719468) % 146097 := by omega
  have hDlt : Int.toNat ((z + 719468) % 146097) < 146097 := by omega
  obtain ⟨hy1, hy2, hy3⟩ := yoeFacts _ hDlt
  obtain ⟨hm1, hm2, hm3, hm4⟩ := doyFacts _ hy3
  have hdoyEq : doyFromDoe (Int.toNat ((z + 719468) % 146097)) =
      Int.toNat ((z + 719468) % 146097) -
        (365 * yoeFromDoe (Int.toNat ((z + 719468) % 146097)) +
         yoeFromDoe (Int.toNat ((z + 719468) % 146097)) / 4 -
         yoeFromDoe (Int.toNat ((z + 719468) % 146097)) / 100) := rfl
  have hmpEq : mpFromDoy (doyFromDoe (Int.toNat ((z + 719468) % 146097))) =
      (5 * doyFromDoe (Int.toNat ((z + 719468) % 146097)) + 2) / 153 := rfl
  simp only [civilFromDays, daysFromCivil]
  set D := Int.toNat ((z + 719468) % 146097) with hD
  set era := (z + 719468) / 146097 with hera
  set yoe := yoeFromDoe D with hyoe
  set doy := doyFromDoe D with hdoy
  set mp := mpFromDoy doy with hmp
  by_cases hsplit : mp < 10
  · rw [if_pos hsplit]
    rw [if_neg (by omega : ¬ (mp + 3 ≤ 2))]
    rw [if_neg (by omega : ¬ (mp + 3 ≤ 2))]
    rw [if_pos (by omega : 2 < mp + 3)]
    rw [show mp + 3 - 3 = mp from by omega]
    rw [show (era * 400 + (yoe : Int) + 0) / 400 = era from by omega]
    rw [show Int.toNat ((era * 400 + (yoe : Int) + 0) % 400) = yoe from by omega]
    omega
  · rw [if_neg hsplit]
    rw [if_pos (by omega : mp - 9 ≤ 2)]
    rw [if_pos (by omega : mp - 9 ≤ 2)]
    rw [if_neg (by omega : ¬ (2 < mp - 9))]
    rw [show mp - 9 + 9 = mp from by omega]
    rw [show (era * 400 + (yoe : Int) + 1 - 1) / 400 = era from by omega]
    rw [show Int.toNat ((era * 400 + (yoe : Int) + 1 - 1) % 400) = yoe from by omega]
    omega

theorem digitAux :
    ∀ r, r < 10 → digitVal (Char.ofNat (48 + r)) = r ∧
      (Char.ofNat (48 + r)).isDigit = true := by decide

theorem digitVal_mkDigit (k : Nat) : digitVal (mkDigit k) = k % 10 := by
  have h : k % 10 < 10 := by omega
  unfold mkDigit
  exact (digitAux _ h).1

theorem isDigit_mkDigit (k : Nat) : (mkDigit k).isDigit = true := by
  have h : k % 10 < 10 := by omega
  unfold mkDigit
  exact (digitAux _ h).2

theorem civilBounds (t : Int) (h : ValidMs t) :
    0 ≤ (civilFromDays (t / msPerDay)).1 ∧ (civilFromDays (t / msPerDay)).1 < 10000 ∧
    1 ≤ (civilFromDays (t / msPerDay)).2.1 ∧ (civilFromDays (t / msPerDay)).2.1 ≤ 12 ∧
    1 ≤ (civilFromDays (t / msPerDay)).2.2 ∧ (civilFromDays (t / msPerDay)).2.2 ≤ 31 := by
  obtain ⟨hlo, hhi⟩ := h
  have hz1 : -719528 ≤ t / msPerDay ∧ t / msPerDay ≤ 2932896 := by
    unfold msPerDay; omega
  set z := t / msPerDay with hz
  clear_value z
  obtain ⟨hzlo, hzhi⟩ := hz1
  have h0 : 0 ≤ (z + 719468) % 146097 := by omega
  have hDlt : Int.toNat ((z + 719468) % 146097) < 146097 := by omega
  obtain ⟨hy1, hy2, hy3⟩ := yoeFacts _ hDlt
  obtain ⟨hm1, hm2, hm3, hm4⟩ := doyFacts _ hy3
  have hdoyEq : doyFromDoe (Int.toNat ((z + 719468) % 146097)) =
      Int.toNat ((z + 719468) % 146097) -
        (365 * yoeFromDoe (Int.toNat ((z + 719468) % 146097)) +
         yoeFromDoe (Int.toNat ((z + 719468) % 146097)) / 4 -
         yoeFromDoe (Int.toNat ((z + 719468) % 146097)) / 100) := rfl
  have hmpEq : mpFromDoy (doyFromDoe (Int.toNat ((z + 719468) % 146097))) =
      (5 * doyFromDoe (Int.toNat ((z + 719468) % 146097)) + 2) / 153 := rfl
  simp only [civilFromDays]
  set D := Int.toNat ((z + 719468) % 146097) with hD
  set era := (z + 719468) / 146097 with hera
  set yoe := yoeFromDoe D with hyoe
  set doy := doyFromDoe D with hdoy
  set mp := mpFromDoy doy with hmp
  have hKeyLow : 146037 ≤ D → yoe = 399 ∧ 306 ≤ doy := by omega
  have hEra : -1 ≤ era ∧ era ≤ 24 := by omega
  have hEraLow : era = -1 → 146037 ≤ D := by omega
  have hEraHigh : era = 24 → D ≤ 146036 := by omega
  by_cases hsplit : mp < 10
  · rw [if_pos hsplit]
    rw [if_neg (by omega : ¬ (mp + 3 ≤ 2))]
    refine ⟨by omega, by omega, by omega, by omega, by omega, by omega⟩
  · rw [if_neg hsplit]
    rw [if_pos (by omega : mp - 9 ≤ 2)]
    refine ⟨by omega, by omega, by omega, by omega, by omega, by omega⟩

theorem parseISO_formatISO (t : Int) (h : ValidMs t) :
    parseISO (formatISO t) = some t := by
  obtain ⟨hY0, hY4, hM1, hM2, hD1, hD2⟩ := civilBounds t h
  simp only [formatISO, parseISO, pad4, pad3, pad2, List.cons_append, List.nil_append]
  simp only [parseISOChars, isDigit_mkDigit, Bool.and_self, if_true, digitVal_mkDigit]
  set Y := (civilFromDays (t / msPerDay)).1 with hY
  set M := (civilFromDays (t / msPerDay)).2.1 with hM
  set Dd := (civilFromDays (t / msPerDay)).2.2 with hDd
  set msod := (t % msPerDay).toNat with hmsod
  have hYn : Y.toNat < 10000 := by omega
  have h1 : Y.toNat / 1000 % 10 * 1000 + Y.toNat / 100 % 10 * 100 +
      Y.toNat / 10 % 10 * 10 + Y.toNat % 10 = Y.toNat := by omega
  rw [h1, Int.toNat_of_nonneg hY0]
  rw [show M / 10 % 10 * 10 + M % 10 = M from by omega]
  rw [show Dd / 10 % 10 * 10 + Dd % 10 = Dd from by omega]
  have hmslt : msod < 86400000 := by
    rw [hmsod]; unfold msPerDay; omega
  rw [show (msod / 3600000 / 10 % 10 * 10 + msod / 3600000 % 10) * 3600000 +
      (msod / 60000 % 60 / 10 % 10 * 10 + msod / 60000 % 60 % 10) * 60000 +
      (msod / 1000 % 60 / 10 % 10 * 10 + msod / 1000 % 60 % 10) * 1000 +
      (msod % 1000 / 100 % 10 * 100 + msod % 1000 / 10 % 10 * 10 + msod % 1000 % 10) =
      msod from by omega]
  rw [hY, hM, hDd]
  rw [daysFromCivil_civilFromDays]
  rw [show t / msPerDay * msPerDay + (msod : Int) = t from by
    rw [hmsod]; unfold msPerDay; omega]

theorem recordLookup_insert_self (m : Record α) (k : String) (v : α) :
    recordLookup (recordInsert m k v) k = some v := by
  unfold recordInsert
  by_cases h : List.any m (fun p => p.1 == k)
  · rw [if_pos h]
    induction m with
    | nil => simp at h
    | cons a as ih =>
      simp only [List.any_cons, Bool.or_eq_true] at h
      simp only [List.map_cons]
      by_cases ha : (a.1 == k) = true
      · rw [if_pos ha]
        unfold recordLookup
        simp [List.find?_cons]
      · rw [if_neg ha]
        unfold recordLookup
        simp only [List.find?_cons, ha]
        rcases h with h | h
        · exact absurd h ha
        · exact ih h
  · rw [if_neg h]
    unfold recordLookup
    have hnone : List.find? (fun p => p.1 == k) m = none := by
      rw [List.find?_eq_none]
      intro x hx
      simp only [List.any_eq_true, not_exists] at h
      intro hc
      exact h x ⟨hx, hc⟩
    rw [List.find?_append, hnone]
    simp

theorem recordLookup_insert_other (m : Record α) (k k2 : String) (v : α)
    (hne : k2 ≠ k) :
    recordLookup (recordInsert m k v) k2 = recordLookup m k2 := by
  have hkk2 : (k == k2) = false := by
    simp only [beq_eq_false_iff_ne, ne_eq]
    exact fun hh => hne hh.symm
  unfold recordInsert
  by_cases h : List.any m (fun p => p.1 == k)
  · rw [if_pos h]
    clear h
    induction m with
    | nil => rfl
    | cons a as ih =>
      simp only [List.map_cons]
      by_cases ha : (a.1 == k) = true
      · have ha2 : (a.1 == k2) = false := by
          have hh : a.1 = k := by simpa using ha
          rw [hh]
          exact hkk2
        rw [if_pos ha]
        unfold recordLookup
        simp only [List.find?_cons, hkk2, ha2]
        exact ih
      · rw [if_neg ha]
        by_cases ha2 : (a.1 == k2) = true
        · unfold recordLookup
          simp only [List.find?_cons, ha2]
        · unfold recordLookup
          simp only [List.find?_cons, Bool.not_eq_true] at ha2 ⊢
          simp only [ha2]
          exact ih
  · rw [if_neg h]
    unfold recordLookup
    rw [List.find?_append]
    cases hm : List.find? (fun p => p.1 == k2) m with
    | none =>
      simp only [List.find?_cons, hkk2, Option.none_orElse]
      simp
    | some p => simp

theorem recordLookup_delete_self (m : Record α) (k : String) :
    recordLookup (recordDelete m k) k = none := by
  unfold recordDelete recordLookup
  have hnone : List.find? (fun p => p.1 == k) (List.filter (fun p => p.1 != k) m) = none := by
    rw [List.find?_eq_none]
    intro x hx
    simp only [List.mem_filter, bne_iff_ne, ne_eq] at hx
    simp only [beq_iff_eq]
    exact hx.2
  rw [hnone]
  rfl

theorem recordLookup_delete_other (m : Record α) (k k2 : String) (hne : k2 ≠ k) :
    recordLookup (recordDelete m k) k2 = recordLookup m k2 := by
  unfold recordDelete recordLookup
  induction m with
  | nil => rfl
  | cons a as ih =>
    by_cases hak : a.1 = k
    · have ha : (a.1 != k) = false := by simp [hak]
      have ha2 : (a.1 == k2) = false := by
        rw [hak]
        simp only [beq_eq_false_iff_ne, ne_eq]
        exact fun hh => hne hh.symm
      simp only [List.filter_cons, ha, Bool.false_eq_true, if_false,
        List.find?_cons, ha2]
      exact ih
    · have ha : (a.1 != k) = true := by simp [hak]
      simp only [List.filter_cons, ha, if_true]
      by_cases ha2 : (a.1 == k2) = true
      · simp only [List.find?_cons, ha2]
      · simp only [Bool.not_eq_true] at ha2
        simp only [List.find?_cons, ha2]
        exact ih

theorem jsDedupAux_mem (l : List String) :
    ∀ (acc : List String) (x : String),
      x ∈ List.foldl (fun acc x => if x ∈ acc then acc else acc ++ [x]) acc l ↔
        x ∈ acc ∨ x ∈ l := by
  induction l with
  | nil => simp
  | cons a as ih =>
    intro acc x
    simp only [List.foldl_cons]
    by_cases h : a ∈ acc
    · rw [if_pos h, ih]
      constructor
      · rintro (hx | hx)
        · exact Or.inl hx
        · exact Or.inr (List.mem_cons_of_mem _ hx)
      · rintro (hx | hx)
        · exact Or.inl hx
        · rcases List.mem_cons.mp hx with hx | hx
          · exact Or.inl (hx ▸ h)
          · exact Or.inr hx
    · rw [if_neg h, ih]
      simp only [List.mem_append, List.mem_singleton, List.mem_cons]
      tauto

theorem jsDedupAux_nodup (l : List String) :
    ∀ acc : List String, acc.Nodup →
      (List.foldl (fun acc x => if x ∈ acc then acc else acc ++ [x]) acc l).Nodup := by
  induction l with
  | nil => intro acc h; exact h
  | cons a as ih =>
    intro acc hacc
    simp only [List.foldl_cons]
    by_cases h : a ∈ acc
    · rw [if_pos h]
      exact ih acc hacc
    · rw [if_neg h]
      refine ih _ ?_
      simp [List.nodup_append, hacc, h]

theorem jsDedup_mem (l : List String) (x : String) : x ∈ jsDedup l ↔ x ∈ l := by
  unfold jsDedup
  rw [jsDedupAux_mem]
  simp

theorem jsDedup_nodup (l : List String) : (jsDedup l).Nodup :=
  jsDedupAux_nodup l [] List.nodup_nil

theorem jsDedup_count_eq_one (l : List String) (x : String) (h : x ∈ l) :
    List.count x (jsDedup l) = 1 :=
  List.count_eq_one_of_mem (jsDedup_nodup l) ((jsDedup_mem l x).mpr h)

/-- Claim C7: toggleTaskCompletion flips `completed`, sets `completedAt` to
the current instant on the incomplete-to-completed transition and to null on
the reverse transition, and is a no-op for an absent id; applying it twice
to a task that starts incomplete restores `completed` and leaves
`completedAt` null. -/
theorem C7_toggleTaskCompletion (s : TaskState) (taskId : String) (t : Task)
    (now1 now2 : Int) (h : recordLookup s.tasks taskId = some t) :
    recordLookup (toggleTaskCompletion taskId now1 s).tasks taskId =
      some { t with completed := !t.completed,
                    completedAt := if !t.completed then some now1 else none } ∧
    (∀ id2, recordLookup s.tasks id2 = none → toggleTaskCompletion id2 now1 s = s) ∧
    (t.completed = false →
      recordLookup
          (toggleTaskCompletion taskId now2 (toggleTaskCompletion taskId now1 s)).tasks
          taskId =
        some { t with completed := false, completedAt := none }) := by
  have hstep : ∀ (now : Int) (s2 : TaskState) (t2 : Task),
      recordLookup s2.tasks taskId = some t2 →
      toggleTaskCompletion taskId now s2 =
        { s2 with tasks := recordInsert s2.tasks taskId { t2 with completed := !t2.completed, completedAt := if !t2.completed then some now else none } } := by
    intro now s2 t2 h2
    unfold toggleTaskCompletion
    rw [h2]
  refine ⟨?_, ?_, ?_⟩
  · rw [hstep now1 s t h]
    exact recordLookup_insert_self _ _ _
  · intro id2 h2
    unfold toggleTaskCompletion
    rw [h2]
  · intro hc
    rw [hstep now1 s t h]
    rw [hstep now2 _ _ (recordLookup_insert_self _ _ _)]
    rw [recordLookup_insert_self]
    simp [hc]

/-- Witness for C7: toggling the initial store's incomplete task-3 at
instant 5 marks it completed at 5. -/
theorem C7_toggleTaskCompletion_witness :
    recordLookup (toggleTaskCompletion "task-3" 5 (initialState 0)).tasks "task-3" =
      some c7Toggled :=
  (C7_toggleTaskCompletion (initialState 0) "task-3" sampleTask3 5 7 rfl).1

/-- Claim C5: after addTask(T), a root T.id appears in rootTaskIds exactly
once even across a repeated addTask with the same id, and a T.id added
under an existing parent P appears in tasks[P].childrenIds exactly once,
again even across repeated calls. -/
theorem C5_addTask_membership (s : TaskState) (t : Task) :
    (t.parentId = none → t.id ∉ s.rootTaskIds →
       List.count t.id (addTask t s).rootTaskIds = 1 ∧
       List.count t.id (addTask t (addTask t s)).rootTaskIds = 1) ∧
    (∀ p pt, t.parentId = some p → p ≠ "" → p ≠ t.id →
       recordLookup s.tasks p = some pt →
       (∃ pt1, recordLookup (addTask t s).tasks p = some pt1 ∧
          List.count t.id pt1.childrenIds = 1) ∧
       (∃ pt2, recordLookup (addTask t (addTask t s)).tasks p = some pt2 ∧
          List.count t.id pt2.childrenIds = 1)) := by
  constructor
  · intro hp hmem
    have hroot1 : (addTask t s).rootTaskIds = s.rootTaskIds ++ [t.id] := by
      unfold addTask
      rw [hp]
      simp only [jsTruthyId, eq_self_iff_true, if_true]
      rw [if_neg hmem]
    have hcount1 : List.count t.id (addTask t s).rootTaskIds = 1 := by
      rw [hroot1, List.count_append]
      rw [List.count_eq_zero_of_not_mem hmem]
      simp
    refine ⟨hcount1, ?_⟩
    have hmem2 : t.id ∈ (addTask t s).rootTaskIds := by
      rw [hroot1]
      simp
    have hroot2 : (addTask t (addTask t s)).rootTaskIds = (addTask t s).rootTaskIds := by
      conv_lhs => rw [addTask]
      rw [hp]
      simp only [jsTruthyId, eq_self_iff_true, if_true]
      rw [if_pos hmem2]
    rw [hroot2, hcount1]
  · intro p pt hp hpne hpid hlook
    have htruthy : jsTruthyId t.parentId = true := by
      rw [hp]
      simp [jsTruthyId, hpne]
    have hl1 : recordLookup (recordInsert s.tasks t.id t) p = some pt := by
      rw [recordLookup_insert_other _ _ _ _ hpid, hlook]
    have hstep1 : (addTask t s).tasks =
        recordInsert (recordInsert s.tasks t.id t) p
          { pt with childrenIds := jsDedup (pt.childrenIds ++ [t.id]) } := by
      unfold addTask
      rw [if_neg (by rw [htruthy]; simp), hp]
      split
      · rename_i parent heq
        cases heq
        split
        · rename_i parent1 heq1
          rw [hl1] at heq1
          cases heq1
          rfl
        · rename_i heq1
          rw [hl1] at heq1
          cases heq1
      · rename_i heq
        cases heq
    have hlp1 : recordLookup (addTask t s).tasks p =
        some { pt with childrenIds := jsDedup (pt.childrenIds ++ [t.id]) } := by
      rw [hstep1]
      exact recordLookup_insert_self _ _ _
    have hc1 : List.count t.id (jsDedup (pt.childrenIds ++ [t.id])) = 1 :=
      jsDedup_count_eq_one _ _ (by simp)
    refine ⟨⟨_, hlp1, hc1⟩, ?_⟩
    have hl2 : recordLookup (recordInsert (addTask t s).tasks t.id t) p =
        some { pt with childrenIds := jsDedup (pt.childrenIds ++ [t.id]) } := by
      rw [recordLookup_insert_other _ _ _ _ hpid, hlp1]
    have hstep2 : (addTask t (addTask t s)).tasks =
        recordInsert (recordInsert (addTask t s).tasks t.id t) p
          { { pt with childrenIds := jsDedup (pt.childrenIds ++ [t.id]) } with
            childrenIds := jsDedup (jsDedup (pt.childrenIds ++ [t.id]) ++ [t.id]) } := by
      conv_lhs => rw [addTask]
      rw [if_neg (by rw [htruthy]; simp), hp]
      split
      · rename_i parent heq
        cases heq
        split
        · rename_i parent1 heq1
          rw [hl2] at heq1
          cases heq1
          rfl
        · rename_i heq1
          rw [hl2] at heq1
          cases heq1
      · rename_i heq
        cases heq
    have hlp2 : recordLookup (addTask t (addTask t s)).tasks p =
        some { pt with childrenIds := jsDedup (jsDedup (pt.childrenIds ++ [t.id]) ++ [t.id]) } := by
      rw [hstep2]
      exact recordLookup_insert_self _ _ _
    exact ⟨_, hlp2, jsDedup_count_eq_one _ _ (by simp)⟩

/-- Witness for C5 at a concrete root task and a concrete child task. -/
theorem C5_addTask_membership_witness :
    List.count "w5" (addTask sampleRootTask (addTask sampleRootTask (initialState 0))).rootTaskIds = 1 := by
  have h := (C5_addTask_membership (initialState 0) sampleRootTask).1 rfl (by decide)
  exact h.2

/-- Claim C8: updateTask merges the supplied fields into tasks[id], is a
silent no-op for an absent id, and never overwrites `createdAt` (stripped
from the partial before the merge), leaving everything else in the store
untouched. -/
theorem C8_updateTask (s : TaskState) (taskId : String) (props : TaskPatch) :
    (recordLookup s.tasks taskId = none → updateTask taskId props s = s) ∧
    (Option.map Task.createdAt (recordLookup (updateTask taskId props s).tasks taskId) =
      Option.map Task.createdAt (recordLookup s.tasks taskId)) ∧
    (∀ t, recordLookup s.tasks taskId = some t →
       recordLookup (updateTask taskId props s).tasks taskId =
         some (applyPatch t props) ∧
       (applyPatch t props).createdAt = t.createdAt ∧
       (applyPatch t props).title = Option.getD props.title t.title ∧
       (applyPatch t props).completed = Option.getD props.completed t.completed) ∧
    (∀ k2, k2 ≠ taskId →
       recordLookup (updateTask taskId props s).tasks k2 = recordLookup s.tasks k2) ∧
    (updateTask taskId props s).rootTaskIds = s.rootTaskIds ∧
    (updateTask taskId props s).columns = s.columns ∧
    (updateTask taskId props s).taskTemplates = s.taskTemplates := by
  by_cases h : ∃ t, recordLookup s.tasks taskId = some t
  · obtain ⟨t, ht⟩ := h
    have hu : updateTask taskId props s =
        { s with tasks := recordInsert s.tasks taskId (applyPatch t props) } := by
      unfold updateTask
      rw [ht]
    refine ⟨?_, ?_, ?_, ?_, ?_, ?_, ?_⟩
    · intro h2
      rw [h2] at ht
      cases ht
    · rw [hu]
      simp only []
      rw [recordLookup_insert_self, ht]
      rfl
    · intro t2 ht2
      rw [ht] at ht2
      cases ht2
      refine ⟨?_, rfl, rfl, rfl⟩
      rw [hu]
      exact recordLookup_insert_self _ _ _
    · intro k2 hk2
      rw [hu]
      exact recordLookup_insert_other _ _ _ _ hk2
    · rw [hu]
    · rw [hu]
    · rw [hu]
  · have ht : recordLookup s.tasks taskId = none := by
      cases hl : recordLookup s.tasks taskId with
      | none => rfl
      | some x => exact absurd ⟨x, hl⟩ h
    have hu : updateTask taskId props s = s := by
      unfold updateTask
      rw [ht]
    refine ⟨fun _ => hu, by rw [hu], ?_, fun k2 _ => by rw [hu], by rw [hu], by rw [hu],
      by rw [hu]⟩
    intro t2 ht2
    rw [ht] at ht2
    cases ht2

/-- Claim C6: deleteTask removes the task, detaches it from its parent
preserving sibling order, removes it from rootTaskIds, clears selection and
edit focus when they reference it, is a no-op for an absent id, and does not
cascade: children stay in the mapping with their parentId untouched. -/
theorem C6_deleteTask (s : TaskState) (taskId : String) (t : Task)
    (h : recordLookup s.tasks taskId = some t) :
    recordLookup (deleteTask taskId s).tasks taskId = none ∧
    (deleteTask taskId s).rootTaskIds = List.filter (fun i => i != taskId) s.rootTaskIds ∧
    ((deleteTask taskId s).selectedTaskId =
      if s.selectedTaskId = some taskId then none else s.selectedTaskId) ∧
    ((deleteTask taskId s).editingTaskId =
      if s.editingTaskId = some taskId then none else s.editingTaskId) ∧
    (∀ p pt, t.parentId = some p → p ≠ "" → p ≠ taskId →
       recordLookup s.tasks p = some pt →
       recordLookup (deleteTask taskId s).tasks p =
         some { pt with childrenIds := List.filter (fun i => i != taskId) pt.childrenIds }) ∧
    (∀ c tc, c ≠ taskId → recordLookup s.tasks c = some tc →
       ∃ tc2, recordLookup (deleteTask taskId s).tasks c = some tc2 ∧
         tc2.parentId = tc.parentId) ∧
    (∀ id2, recordLookup s.tasks id2 = none → deleteTask id2 s = s) := by
  have hnoop : ∀ id2, recordLookup s.tasks id2 = none → deleteTask id2 s = s := by
    intro id2 h2
    unfold deleteTask
    rw [h2]
  have htasks : (deleteTask taskId s).tasks =
      (if jsTruthyId t.parentId then
        match t.parentId with
        | some pid =>
          match recordLookup (recordDelete s.tasks taskId) pid with
          | some parent =>
            recordInsert (recordDelete s.tasks taskId) pid
              { parent with childrenIds := List.filter (fun i => i != taskId) parent.childrenIds }
          | none => recordDelete s.tasks taskId
        | none => recordDelete s.tasks taskId
      else recordDelete s.tasks taskId) ∧
      (deleteTask taskId s).rootTaskIds = List.filter (fun i => i != taskId) s.rootTaskIds ∧
      ((deleteTask taskId s).selectedTaskId =
        if s.selectedTaskId = some taskId then none else s.selectedTaskId) ∧
      ((deleteTask taskId s).editingTaskId =
        if s.editingTaskId = some taskId then none else s.editingTaskId) := by
    unfold deleteTask
    rw [h]
    exact ⟨rfl, rfl, rfl, rfl⟩
  obtain ⟨hT, hR, hSel, hEd⟩ := htasks
  refine ⟨?_, hR, hSel, hEd, ?_, ?_, hnoop⟩
  · rcases hps : t.parentId with _ | p
    · rw [hps] at hT
      have hT1 : (deleteTask taskId s).tasks = recordDelete s.tasks taskId := hT
      rw [hT1]
      exact recordLookup_delete_self _ _
    · rw [hps] at hT
      by_cases hpe : p = ""
      · subst hpe
        have hT1 : (deleteTask taskId s).tasks = recordDelete s.tasks taskId := hT
        rw [hT1]
        exact recordLookup_delete_self _ _
      · rw [show jsTruthyId (some p) = true from by simp [jsTruthyId, hpe]] at hT
        have hT2 : (deleteTask taskId s).tasks =
            (match recordLookup (recordDelete s.tasks taskId) p with
             | some parent =>
               recordInsert (recordDelete s.tasks taskId) p
                 { parent with childrenIds := List.filter (fun i => i != taskId) parent.childrenIds }
             | none => recordDelete s.tasks taskId) := hT
        cases hlp : recordLookup (recordDelete s.tasks taskId) p with
        | none =>
          rw [hlp] at hT2
          have hT3 : (deleteTask taskId s).tasks = recordDelete s.tasks taskId := hT2
          rw [hT3]
          exact recordLookup_delete_self _ _
        | some parent =>
          rw [hlp] at hT2
          have hT3 : (deleteTask taskId s).tasks =
              recordInsert (recordDelete s.tasks taskId) p
                { parent with childrenIds := List.filter (fun i => i != taskId) parent.childrenIds } := hT2
          have hpidne : taskId ≠ p := by
            intro hcontra
            rw [hcontra] at hlp
            rw [recordLookup_delete_self] at hlp
            cases hlp
          rw [hT3, recordLookup_insert_other _ _ _ _ hpidne]
          exact recordLookup_delete_self _ _
  · intro p pt hps hpe hpid hlook
    rw [hps] at hT
    rw [show jsTruthyId (some p) = true from by simp [jsTruthyId, hpe]] at hT
    have hT2 : (deleteTask taskId s).tasks =
        (match recordLookup (recordDelete s.tasks taskId) p with
         | some parent =>
           recordInsert (recordDelete s.tasks taskId) p
             { parent with childrenIds := List.filter (fun i => i != taskId) parent.childrenIds }
         | none => recordDelete s.tasks taskId) := hT
    have hlp : recordLookup (recordDelete s.tasks taskId) p = some pt := by
      rw [recordLookup_delete_other _ _ _ hpid, hlook]
    rw [hlp] at hT2
    have hT3 : (deleteTask taskId s).tasks =
        recordInsert (recordDelete s.tasks taskId) p
          { pt with childrenIds := List.filter (fun i => i != taskId) pt.childrenIds } := hT2
    rw [hT3]
    exact recordLookup_insert_self _ _ _
  · intro c tc hc hlc
    have hbase : recordLookup (recordDelete s.tasks taskId) c = some tc := by
      rw [recordLookup_delete_other _ _ _ hc, hlc]
    rcases hps : t.parentId with _ | p
    · rw [hps] at hT
      have hT1 : (deleteTask taskId s).tasks = recordDelete s.tasks taskId := hT
      exact ⟨tc, by rw [hT1]; exact hbase, rfl⟩
    · rw [hps] at hT
      by_cases hpe : p = ""
      · subst hpe
        have hT1 : (deleteTask taskId s).tasks = recordDelete s.tasks taskId := hT
        exact ⟨tc, by rw [hT1]; exact hbase, rfl⟩
      · rw [show jsTruthyId (some p) = true from by simp [jsTruthyId, hpe]] at hT
        have hT2 : (deleteTask taskId s).tasks =
            (match recordLookup (recordDelete s.tasks taskId) p with
             | some parent =>
               recordInsert (recordDelete s.tasks taskId) p
                 { parent with childrenIds := List.filter (fun i => i != taskId) parent.childrenIds }
             | none => recordDelete s.tasks taskId) := hT
        cases hlp : recordLookup (recordDelete s.tasks taskId) p with
        | none =>
          rw [hlp] at hT2
          have hT3 : (deleteTask taskId s).tasks = recordDelete s.tasks taskId := hT2
          exact ⟨tc, by rw [hT3]; exact hbase, rfl⟩
        | some parent =>
          rw [hlp] at hT2
          have hT3 : (deleteTask taskId s).tasks =
              recordInsert (recordDelete s.tasks taskId) p
                { parent with childrenIds := List.filter (fun i => i != taskId) parent.childrenIds } := hT2
          by_cases hcp : c = p
          · subst hcp
            rw [hbase] at hlp
            cases hlp
            refine ⟨{ tc with childrenIds := List.filter (fun i => i != taskId) tc.childrenIds }, ?_, rfl⟩
            rw [hT3]
            exact recordLookup_insert_self _ _ _
          · refine ⟨tc, ?_, rfl⟩
            rw [hT3, recordLookup_insert_other _ _ _ _ hcp]
            exact hbase

/-- Witness for C6: deleting the concrete child task-3 of task-1 in the
initial store. -/
theorem C6_deleteTask_witness :
    recordLookup (deleteTask "task-3" (initialState 0)).tasks "task-3" = none ∧
    (deleteTask "task-3" (initialState 0)).rootTaskIds = ["task-1", "task-5"] := by
  have hmain := C6_deleteTask (initialState 0) "task-3" sampleTask3 rfl
  exact ⟨hmain.1, hmain.2.1⟩

/-- Claim C10: updateTask strips only createdAt; id, parentId and
childrenIds are merged like any other supplied field while the mapping key,
rootTaskIds and all other tasks stay unchanged, so a parentId patch leaves
the parent's childrenIds stale and breaks the forest invariant. -/
theorem C10_updateTask_unchecked (s : TaskState) (taskId : String) (props : TaskPatch) :
    (∀ t, recordLookup s.tasks taskId = some t →
       recordLookup (updateTask taskId props s).tasks taskId = some (applyPatch t props) ∧
       (applyPatch t props).id = Option.getD props.id t.id ∧
       (applyPatch t props).parentId = Option.getD props.parentId t.parentId ∧
       (applyPatch t props).childrenIds = Option.getD props.childrenIds t.childrenIds ∧
       (applyPatch t props).createdAt = t.createdAt ∧
       recordKeys (updateTask taskId props s).tasks = recordKeys s.tasks ∧
       (∀ k2, k2 ≠ taskId →
          recordLookup (updateTask taskId props s).tasks k2 = recordLookup s.tasks k2)) ∧
    (updateTask taskId props s).rootTaskIds = s.rootTaskIds ∧
    parentLinksMirrored c10State.tasks = true ∧
    parentLinksMirrored (updateTask "B" c10Patch c10State).tasks = false := by
  refine ⟨?_, ?_, rfl, rfl⟩
  · intro t ht
    have hu : updateTask taskId props s =
        { s with tasks := recordInsert s.tasks taskId (applyPatch t props) } := by
      unfold updateTask
      rw [ht]
    have hany : List.any s.tasks (fun p => p.1 == taskId) = true := by
      unfold recordLookup at ht
      cases hf : List.find? (fun p => p.1 == taskId) s.tasks with
      | none => rw [hf] at ht; cases ht
      | some q =>
        have hq := List.find?_some hf
        rw [List.any_eq_true]
        exact ⟨q, List.mem_of_find?_eq_some hf, hq⟩
    refine ⟨?_, rfl, rfl, rfl, rfl, ?_, ?_⟩
    · rw [hu]
      exact recordLookup_insert_self _ _ _
    · rw [hu]
      unfold recordInsert recordKeys
      rw [if_pos hany, List.map_map]
      apply List.map_congr_left
      intro p hp
      by_cases hpk : (p.1 == taskId) = true
      · simp only [Function.comp, hpk, if_true]
        have : p.1 = taskId := by simpa using hpk
        simp [this]
      · simp only [Function.comp]
        rw [if_neg hpk]
    · intro k2 hk2
      rw [hu]
      exact recordLookup_insert_other _ _ _ _ hk2
  · unfold updateTask
    cases recordLookup s.tasks taskId <;> rfl

/-- Claim C9: the week-start offset `today === 0 ? 6 : today - 1` agrees
with the spec formula `(dayOfWeek + 6) % 7` on every day of the week, so
the count matches the spec-modelled count of completed tasks with
completedAt at or after the most recent Monday 00:00. -/
theorem C9_weekCount (dayOfWeek : Nat) (todayStart : Int) (s : TaskState)
    (h : dayOfWeek < 7) :
    weekOffsetCode dayOfWeek = (dayOfWeek + 6) % 7 ∧
    getTasksCompletedThisWeekCount dayOfWeek todayStart s =
      getTasksCompletedThisWeekCountSpec dayOfWeek todayStart s := by
  have hoff : weekOffsetCode dayOfWeek = (dayOfWeek + 6) % 7 := by
    unfold weekOffsetCode
    split <;> omega
  refine ⟨hoff, ?_⟩
  unfold getTasksCompletedThisWeekCount getTasksCompletedThisWeekCountSpec
  rw [hoff]

/-- Witness for C9 on Sunday (dayOfWeek 0) over the initial store. -/
theorem C9_weekCount_witness :
    getTasksCompletedThisWeekCount 0 0 (initialState 0) =
      getTasksCompletedThisWeekCountSpec 0 0 (initialState 0) :=
  (C9_weekCount 0 0 (initialState 0) (by decide)).2

/-- Claim C1 (code evidence): applyTemplate in the current store never
materializes any task — the loop body over template.tasks is empty (the
call at useTaskStore.ts line 146 is commented out) — so even for the
stored 4-entry template-morning it returns no ids and the task mapping is
untouched, contradicting the claimed addTask-equivalent insertion. -/
theorem C1_applyTemplate_noop :
    (∀ (s : TaskState) (tid : String) (pid : Option String) (sdt : Option Int),
       (applyTemplate tid pid sdt s).1 = []) ∧
    (∃ tpl, recordLookup (initialState 0).taskTemplates "template-morning" = some tpl ∧
       List.length tpl.tasks = 4) ∧
    applyTemplate "template-morning" none none (initialState 0) = ([], initialState 0) := by
  refine ⟨?_, ⟨_, rfl, rfl⟩, rfl⟩
  intro s tid pid sdt
  unfold applyTemplate
  cases recordLookup s.taskTemplates tid <;> rfl

/-- Claim C3 (amended): importState fails (false, state untouched) exactly
when data is null, typeof data.tasks is not object, data.rootTaskIds is not
an array, typeof data.taskTemplates is not object, or data.tasks is null
(caught rehydration exception); otherwise it replaces tasks (rehydrated),
rootTaskIds and taskTemplates wholesale, clears selection/editing, empties
the columns and returns true — an array data.tasks passes the typeof guard
and is imported as an index-keyed mapping. -/
theorem C3_importState (d : Option RawImportData) (s : TaskState) :
    ((importState d s).1 = false ∧ (importState d s).2 = s ↔
       d = none ∨ ∃ r, d = some r ∧
         (r.tasks = JTasksField.nonObject ∨ r.tasks = JTasksField.jnull ∨
          r.rootTaskIds = JRootField.nonArray ∨
          r.taskTemplates = JTemplatesField.nonObject)) ∧
    (∀ r m root tpl, d = some r → r.tasks = JTasksField.jmap m →
       r.rootTaskIds = JRootField.arr root → r.taskTemplates = JTemplatesField.jmap tpl →
       importState d s = (true,
         { tasks := List.map (fun p => (p.1, rehydrateTask p.2)) m,
           columns := [], rootTaskIds := root, selectedTaskId := none,
           editingTaskId := none, taskTemplates := tpl })) ∧
    (∀ r l root tpl, d = some r → r.tasks = JTasksField.jarr l →
       r.rootTaskIds = JRootField.arr root → r.taskTemplates = JTemplatesField.jmap tpl →
       importState d s = (true,
         { tasks := List.map (fun p => (p.1, rehydrateTask p.2)) (indexedEntries l),
           columns := [], rootTaskIds := root, selectedTaskId := none,
           editingTaskId := none, taskTemplates := tpl })) := by
  refine ⟨?_, ?_, ?_⟩
  · rcases d with _ | ⟨jt, jr0, jp0⟩
    · simp [importState]
    · rcases jt with _ | _ | m | l <;> rcases jr0 with _ | root <;> rcases jp0 with _ | tpl <;>
        simp [importState]
  · intro r m root tpl hd ht hr hp
    subst hd
    rcases r with ⟨jt, jr0, jp0⟩
    simp only at ht hr hp
    subst ht
    subst hr
    subst hp
    rfl
  · intro r l root tpl hd ht hr hp
    subst hd
    rcases r with ⟨jt, jr0, jp0⟩
    simp only at ht hr hp
    subst ht
    subst hr
    subst hp
    rfl

/-- Counterexample to C3 as stated: an import payload whose tasks value is
a JS array (not a mapping) is accepted — importState returns true and
replaces the store, instead of returning false and leaving it unchanged. -/
theorem C3_importState_counterexample :
    (importState c3BadImport (initialState 0)).1 = true ∧
    (importState c3BadImport (initialState 0)).2.tasks = [] ∧
    (initialState 0).tasks ≠ [] := by
  refine ⟨rfl, rfl, ?_⟩
  intro hcontra
  simp [initialState] at hcontra

theorem specChildColumns_length (s : TaskState) (now : Int) :
    ∀ (h : List String) (lvl : Nat),
      List.length (specChildColumns s now lvl h) ≤ List.length h := by
  intro h
  induction h with
  | nil => intro lvl; simp [specChildColumns]
  | cons tid rest ih =>
    intro lvl
    cases hl : recordLookup s.tasks tid with
    | none =>
      have he : specChildColumns s now lvl (tid :: rest) = specChildColumns s now lvl rest := by
        simp only [specChildColumns]
        rw [hl]
      rw [he]
      calc List.length (specChildColumns s now lvl rest) ≤ List.length rest := ih lvl
        _ ≤ List.length (tid :: rest) := by simp
    | some t =>
      have he : specChildColumns s now lvl (tid :: rest) =
          (if 0 < List.length t.childrenIds then
            { id := "column-" ++ tid ++ "-" ++ toString now
              taskIds := List.filter (fun i => Option.isSome (recordLookup s.tasks i)) t.childrenIds
              parentTaskId := some tid
              level := lvl } :: specChildColumns s now (lvl + 1) rest
          else specChildColumns s now lvl rest) := by
        simp only [specChildColumns]
        rw [hl]
      rw [he]
      by_cases hc : 0 < List.length t.childrenIds
      · rw [if_pos hc]
        simpa using ih (lvl + 1)
      · rw [if_neg hc]
        calc List.length (specChildColumns s now lvl rest) ≤ List.length rest := ih lvl
          _ ≤ List.length (tid :: rest) := by simp

theorem setActiveColumnsLoop (s : TaskState) (now : Int) :
    ∀ (h : List String) (acc : List TaskColumn) (lvl : Nat),
      (List.foldl (setActiveColumnsStep s now) (acc, lvl) h).1 =
        acc ++ specChildColumns s now lvl h := by
  intro h
  induction h with
  | nil => intro acc lvl; simp [specChildColumns]
  | cons tid rest ih =>
    intro acc lvl
    simp only [List.foldl_cons]
    cases hl : recordLookup s.tasks tid with
    | none =>
      have hstep : setActiveColumnsStep s now (acc, lvl) tid = (acc, lvl) := by
        unfold setActiveColumnsStep
        rw [hl]
      have he : specChildColumns s now lvl (tid :: rest) = specChildColumns s now lvl rest := by
        simp only [specChildColumns]
        rw [hl]
      rw [hstep, ih, he]
    | some t =>
      have hstep : setActiveColumnsStep s now (acc, lvl) tid =
          (if 0 < List.length t.childrenIds then
            (acc ++ [{ id := "column-" ++ tid ++ "-" ++ toString now
                       taskIds := List.filter (fun i => Option.isSome (recordLookup s.tasks i)) t.childrenIds
                       parentTaskId := some tid
                       level := lvl }], lvl + 1)
          else (acc, lvl)) := by
        unfold setActiveColumnsStep
        rw [hl]
      have he : specChildColumns s now lvl (tid :: rest) =
          (if 0 < List.length t.childrenIds then
            { id := "column-" ++ tid ++ "-" ++ toString now
              taskIds := List.filter (fun i => Option.isSome (recordLookup s.tasks i)) t.childrenIds
              parentTaskId := some tid
              level := lvl } :: specChildColumns s now (lvl + 1) rest
          else specChildColumns s now lvl rest) := by
        simp only [specChildColumns]
        rw [hl]
      rw [hstep, he]
      by_cases hc : 0 < List.length t.childrenIds
      · rw [if_pos hc, if_pos hc, ih]
        simp
      · rw [if_neg hc, if_neg hc, ih]

/-- Claim C4: setActiveColumns replaces the column list with the root
column followed by one column per hierarchy entry whose task exists and has
children (children filtered to existing tasks, parent set, consecutive
levels), truncated to 5; the empty hierarchy always yields exactly the root
column, and N entries yield at most min(N+1, 5) columns. -/
theorem C4_setActiveColumns (s : TaskState) (hier : List String) (now : Int) :
    (setActiveColumns hier now s).columns =
      List.take 5 (rootColumnOf s now :: specChildColumns s now 1 hier) ∧
    (setActiveColumns [] now s).columns = [rootColumnOf s now] ∧
    List.length (setActiveColumns hier now s).columns ≤ min (List.length hier + 1) 5 ∧
    (rootColumnOf s now).taskIds =
      List.filter (fun i => Option.isSome (recordLookup s.tasks i)) s.rootTaskIds ∧
    (rootColumnOf s now).parentTaskId = none ∧
    (rootColumnOf s now).level = 0 := by
  have hmain : ∀ h2 : List String, (setActiveColumns h2 now s).columns =
      List.take 5 (rootColumnOf s now :: specChildColumns s now 1 h2) := by
    intro h2
    have hsac : (setActiveColumns h2 now s).columns =
        List.take 5 (List.foldl (setActiveColumnsStep s now) ([rootColumnOf s now], 1) h2).1 := rfl
    rw [hsac, setActiveColumnsLoop s now h2 [rootColumnOf s now] 1]
    rfl
  refine ⟨hmain hier, ?_, ?_, rfl, rfl, rfl⟩
  · rw [hmain []]
    rfl
  · rw [hmain hier]
    have hlen := specChildColumns_length s now hier 1
    simp only [List.length_take, List.length_cons]
    omega

theorem formatISO_ne_empty (t : Int) : formatISO t ≠ "" := by
  intro hcontra
  have h2 : List.length (formatISO t).data = List.length ("" : String).data := by
    rw [hcontra]
  simp [formatISO, pad4, pad3, pad2] at h2

theorem newDateFromString_formatISO (x : Int) (h : ValidMs x) :
    newDateFromString (formatISO x) = x := by
  unfold newDateFromString
  rw [parseISO_formatISO x h]

theorem rehydrateTask_exportTask (t : Task) (h1 : ValidMs t.createdAt)
    (h2 : ∀ c, t.completedAt = some c → ValidMs c) :
    rehydrateTask (exportTask t) = t := by
  cases t with
  | mk id title desc comp par ch cr compAt est tags prio =>
    simp only at h1 h2
    cases compAt with
    | none =>
      simp only [rehydrateTask, exportTask, newDateFromString_formatISO cr h1]
    | some c =>
      have hv := h2 c rfl
      simp only [rehydrateTask, exportTask]
      rw [if_neg (formatISO_ne_empty c), newDateFromString_formatISO c hv,
        newDateFromString_formatISO cr h1]

/-- Claim C2: importing the export of any valid snapshot succeeds and
reproduces its tasks, rootTaskIds and taskTemplates, with timestamps equal
to millisecond precision. -/
theorem C2_export_import_roundtrip (S s0 : TaskState) (hS : ValidDatesState S) :
    (importState (exportedAsRaw (exportData S)) s0).1 = true ∧
    (importState (exportedAsRaw (exportData S)) s0).2.tasks = S.tasks ∧
    (importState (exportedAsRaw (exportData S)) s0).2.rootTaskIds = S.rootTaskIds ∧
    (importState (exportedAsRaw (exportData S)) s0).2.taskTemplates = S.taskTemplates := by
  have himp : importState (exportedAsRaw (exportData S)) s0 =
      (true,
       { tasks := List.map (fun p => (p.1, rehydrateTask p.2))
           (List.map (fun p => (p.1, exportTask p.2)) S.tasks)
         columns := []
         rootTaskIds := S.rootTaskIds
         selectedTaskId := none
         editingTaskId := none
         taskTemplates := S.taskTemplates }) := rfl
  rw [himp]
  refine ⟨rfl, ?_, rfl, rfl⟩
  rw [List.map_map]
  have hcongr : ∀ p ∈ S.tasks,
      ((fun p => (p.1, rehydrateTask p.2)) ∘ (fun p => (p.1, exportTask p.2))) p = id p := by
    intro p hp
    obtain ⟨hv1, hv2⟩ := hS p hp
    simp only [Function.comp, id]
    rw [rehydrateTask_exportTask p.2 hv1 hv2]
  rw [List.map_congr_left hcongr, List.map_id]

/-- Witness for C2 on a one-task snapshot with a completion timestamp. -/
theorem C2_export_import_roundtrip_witness :
    ValidDatesState c2Sample ∧
    (importState (exportedAsRaw (exportData c2Sample)) (initialState 0)).1 = true ∧
    (importState (exportedAsRaw (exportData c2Sample)) (initialState 0)).2.tasks =
      c2Sample.tasks :=
  ⟨by decide,
   (C2_export_import_roundtrip c2Sample (initialState 0) (by decide)).1,
   (C2_export_import_roundtrip c2Sample (initialState 0) (by decide)).2.1⟩

end FlowPrint
